import Mathlib

/-!
Verification of the Investigator evidence-gathering pipeline
(src/modules/investigator.py, src/llm_client.py, src/models.py,
src/law_api.py) against its natural-language specification.

The Python code is shallowly embedded: async control flow becomes explicit
state passing over `InvState` (cooperative scheduling of `asyncio.gather`
batches is modelled by sequential threading in input order, which the spec
notes is order-preserving); the external generative-judgment service and the
law-search HTTP API become deterministic oracles packaged in `Env`, with the
judgment oracle indexed by the running count of judgment calls; Python
exceptions that the source catches become `Option`/`Except` values.
-/

/-- One JSON value as produced by `json_repair.loads` on the judgment
service's text reply.  Numbers are integers here: non-integral JSON numbers
are rejected by every consumer in the source (`isinstance(i, int)` checks and
pydantic `str` fields), so they behave like `null` at every call site. -/
inductive Json where
  | str (s : String)
  | num (n : Int)
  | bool (b : Bool)
  | arr (l : List Json)
  | obj (l : List (String × Json))
  | null

/-- models.py `AtomicAction`: actor / action / object triple. -/
structure AtomicAction where
  actor : String
  action : String
  object : String
deriving DecidableEq

/-- models.py `Scenario` (name, type, actions). -/
structure Scenario where
  name : String
  scType : String
  actions : List AtomicAction
deriving DecidableEq

/-- models.py `SearchStrategy`: rationale, databases (default
["law", "admrul"]), focus_keywords (default []). -/
structure SearchStrategy where
  rationale : String
  databases : List String
  focus_keywords : List String
deriving DecidableEq

/-- models.py `DocumentReview`: the unit of evidence. -/
structure DocumentReview where
  law_name : String
  key_clause : String
  status : String
  summary : String
  url : String
deriving DecidableEq

/-- The four review fields the extraction prompts ask the judgment service
for (the url field is overwritten by the extractor). -/
structure ReviewData where
  law_name : String
  key_clause : String
  status : String
  summary : String
deriving DecidableEq

/-- One node of the parsed article list produced by
`law_api._parse_law_structure` (id label and flattened content). -/
structure Article where
  id : String
  content : String
deriving DecidableEq

/-- The raw structured payload of a fetched document, abstracted by the two
observations `_analyze_full_text` makes of it: `law_api._get_unique_id(raw)`
(uniqueId, "Unknown" when no identifier field is present) and
`law_api._parse_law_structure(raw)` (articles). -/
structure RawDoc where
  uniqueId : String
  articles : List Article
deriving DecidableEq

/-- `law_api._get_unique_id({}) = "Unknown"` and
`law_api._parse_law_structure({}) = []`: the empty dict the precedent
shortcut passes recursively. -/
def emptyRaw : RawDoc := ⟨"Unknown", []⟩

/-- One hit returned by `law_api.ai_search` (law_name, article_title,
content, link, raw). -/
structure AiItem where
  law_name : String
  article_title : String
  content : String
  link : String
  raw : RawDoc
deriving DecidableEq

/-- A candidate dict from `law_api.search_list` as used by
`_select_best_candidates` and the precedent phase: optional fields
법령명한글 / 행정규칙명 / 판례일련번호 / 판례내용 / 사건명. -/
structure Candidate where
  lawNameKo : Option String
  admrulName : Option String
  serialNo : Option String
  precContent : Option String
  caseName : Option String
deriving DecidableEq

/-- One entry of `collected_raw_data` in `_search_phase`:
(category, title, text, url, raw). -/
structure RawItem where
  category : String
  title : String
  text : String
  url : String
  raw : RawDoc
deriving DecidableEq

/-- Mutable state of one `Investigator` instance plus instrumentation:
the analysis cache keyed by (action text, document id); `llmCalls` counts
`llm_client.generate` invocations; `netCalls` counts law-API requests;
`searchRuns` counts `_search_phase` invocations. -/
structure InvState where
  cache : List ((String × String) × List DocumentReview)
  llmCalls : Nat
  netCalls : Nat
  searchRuns : Nat
deriving DecidableEq

/-- The external world: the judgment service's reply to the n-th judgment
call, already passed through `json_repair.loads` (`none` models a raising
parse), and the two law-API endpoints that exist on the `NationalLawAPI`
instance `investigator.py` imports (`ai_search` and `search_list`).  The
precedent content fetch `get_content_from_item` that `_search_phase` also
tries to call does NOT exist on that class — see `searchPhase2`. -/
structure Env where
  llm : Nat → Option Json
  aiSearch : Json → Nat → List AiItem
  searchListPrec : Json → Option String → List Candidate

/-- Issue one judgment-service call: consume the oracle at the current call
index and bump the counter. -/
def genLLM (env : Env) (s : InvState) : Option Json × InvState :=
  (env.llm s.llmCalls, { s with llmCalls := s.llmCalls + 1 })

/-- Python dict lookup on a parsed JSON object (first binding wins). -/
def getKey (d : List (String × Json)) (k : String) : Option Json :=
  (d.find? (fun p => p.1 = k)).map (·.2)

/-- Accept only a JSON string for a pydantic `str` field (numeric coercion
differs between pydantic major versions; the judgment prompts mandate string
fields, and no property proved here depends on coercing a non-string). -/
def asStr : Json → Option String
  | .str s => some s
  | _ => none

/-- Python `a or b` on two optional strings (None and "" are falsy). -/
def pyOrOpt (a b : Option String) : Option String :=
  match a with
  | some s => if s = "" then b else some s
  | none => b

/-- Python f-string rendering of an optional string (`None` prints "None"). -/
def optStr (o : Option String) : String := o.getD "None"

/-- Python truthiness of a parsed JSON value. -/
def pyTruthy : Json → Bool
  | .str s => s ≠ ""
  | .num n => n ≠ 0
  | .bool b => b
  | .arr l => !l.isEmpty
  | .obj l => !l.isEmpty
  | .null => false

mutual
/-- Python `repr` of a parsed JSON value (single-quoted strings,
True/False/None, bracketed containers). -/
def pyRepr : Json → String
  | .str s => "\x27" ++ s ++ "\x27"
  | .num n => toString n
  | .bool b => if b then "True" else "False"
  | .null => "None"
  | .arr l => "[" ++ String.intercalate ", " (pyReprList l) ++ "]"
  | .obj l => "\x7b" ++ String.intercalate ", " (pyReprObj l) ++ "\x7d"

def pyReprList : List Json → List String
  | [] => []
  | x :: xs => pyRepr x :: pyReprList xs

def pyReprObj : List (String × Json) → List String
  | [] => []
  | (k, v) :: xs => ("\x27" ++ k ++ "\x27: " ++ pyRepr v) :: pyReprObj xs
end

/-- Python `str` of a parsed JSON value (top-level strings unquoted). -/
def pyStr : Json → String
  | .str s => s
  | v => pyRepr v

/-- Python `str.strip()` (leading and trailing whitespace removed). -/
def pyStrip (s : String) : String :=
  String.mk (((s.toList.dropWhile Char.isWhitespace).reverse.dropWhile
    Char.isWhitespace).reverse)

/-- Python `str.lower()` (ASCII case folding suffices for the error
classification strings involved). -/
def pyLower (s : String) : String := String.mk (s.toList.map Char.toLower)

/-- Python `a in b` substring test. -/
def substrB (a b : String) : Bool := decide (List.IsInfix a.toList b.toList)

/-- Dict lookup in the analysis cache. -/
def cacheFind (c : List ((String × String) × List DocumentReview))
    (k : String × String) : Option (List DocumentReview) :=
  (c.find? (fun p => p.1 = k)).map (·.2)

/-- Dict assignment in the analysis cache, modelled as a shadowing prepend
(`cacheFind` returns the most recent binding). -/
def cacheSet (c : List ((String × String) × List DocumentReview))
    (k : String × String) (v : List DocumentReview) :
    List ((String × String) × List DocumentReview) :=
  (k, v) :: c

/-- Helper for `re.sub(r'\(.*?\)', '', k)`: from an opening parenthesis,
find the nearest closing parenthesis with no newline in between (Python `.`
does not cross newlines) and return the suffix after it. -/
def findClose : List Char → Option (List Char)
  | [] => none
  | c :: cs => if c = ')' then some cs else if c = '\n' then none else findClose cs

/-- `re.sub(r'\(.*?\)', '', k)`: remove every non-greedy parenthesised span,
scanning left to right (fuel = input length bounds the recursion). -/
def stripParensAux : Nat → List Char → List Char
  | 0, l => l
  | _ + 1, [] => []
  | f + 1, c :: cs =>
    if c = '(' then
      match findClose cs with
      | some rest => stripParensAux f rest
      | none => c :: stripParensAux f cs
    else c :: stripParensAux f cs

/-- Length of a match of `\s*제\d*O*조.*` anchored at this suffix, if any
(ASCII digits stand in for `\d`, Lean whitespace for `\s`; `.*` stops at a
newline). -/
def joMatchLen (l : List Char) : Option Nat :=
  let w := (l.takeWhile Char.isWhitespace).length
  let rest := l.drop w
  match rest with
  | '제' :: r2 =>
    let d := (r2.takeWhile Char.isDigit).length
    let r3 := r2.drop d
    let o := (r3.takeWhile (· = 'O')).length
    let r4 := r3.drop o
    match r4 with
    | '조' :: r5 => some (w + 1 + d + o + 1 + (r5.takeWhile (· ≠ '\n')).length)
    | _ => none
  | _ => none

/-- `re.sub(r'\s*제\d*O*조.*', '', k)`: delete each leftmost match and keep
scanning after it. -/
def dropJoAux : Nat → List Char → List Char
  | 0, l => l
  | _ + 1, [] => []
  | f + 1, l@(c :: cs) =>
    match joMatchLen l with
    | some m => dropJoAux f (l.drop m)
    | none => c :: dropJoAux f cs

/-- The per-keyword pipeline of `Investigator._clean_keywords`: strip
parenthesised spans, strip article-number tails, strip ASCII letters
(`[a-zA-Z]`, exactly `Char.isAlpha`), then `strip()`. -/
def cleanKeyword (k : String) : String :=
  let l := k.toList
  let l := stripParensAux l.length l
  let l := dropJoAux l.length l
  let l := l.filter (fun c => !c.isAlpha)
  pyStrip (String.mk l)

/-- `Investigator._clean_keywords`: clean each keyword, keep those of length
at least 2, preserving order. -/
def clean_keywords (ks : List String) : List String :=
  ks.filterMap (fun k =>
    let c := cleanKeyword k
    if 2 ≤ c.length then some c else none)

/-- Python `range(0, L, 3700)`: the chunk start offsets used by the
sliding-window analysis (`chunk_size = 4000`, `overlap = 300`,
step `chunk_size - overlap = 3700`). -/
def chunkStarts (L : Nat) : List Nat :=
  (List.range ((L + 3699) / 3700)).map (· * 3700)

/-- `[text[i:i+chunk_size] for i in range(0, len(text), chunk_size - overlap)]`
over the text's characters. -/
def chunksOfText (cs : List Char) : List (List Char) :=
  (chunkStarts cs.length).map (fun i => (cs.drop i).take 4000)

/-- `"\n\n".join(f"[{a['id']}]\n{a['content']}" for a in articles)`: the
combined issue/holding text the precedent shortcut re-analyses. -/
def joinArticles (articles : List Article) : String :=
  String.intercalate "\n\n" (articles.map (fun a => "[" ++ a.id ++ "]\n" ++ a.content))

/-- Validate the dict the judgment service returned against
`DocumentReview(**data)`: the four prompt fields must be present as strings,
`url` may only be present as a string, extra keys are ignored. -/
def parseReviewDict (d : List (String × Json)) : Option ReviewData := do
  let ln ← (getKey d "law_name").bind asStr
  let kc ← (getKey d "key_clause").bind asStr
  let st ← (getKey d "status").bind asStr
  let sm ← (getKey d "summary").bind asStr
  match getKey d "url" with
  | some v => match asStr v with
    | some _ => pure ⟨ln, kc, st, sm⟩
    | none => none
  | none => pure ⟨ln, kc, st, sm⟩

/-- One extraction response: keep the review unless its status equals the
path's sentinel exactly, or the response fails to parse as the expected
shape (malformed responses are silently skipped). The review's url field is
overwritten with the current fetch's url. -/
def reviewsFromResp (resp : Option Json) (sentinel url : String) :
    List DocumentReview :=
  match resp with
  | some (.obj d) =>
    match parseReviewDict d with
    | some rd =>
      if rd.status ≠ sentinel then
        [⟨rd.law_name, rd.key_clause, rd.status, rd.summary, url⟩]
      else []
    | none => []
  | _ => []

/-- `[articles[i] for i in selected_indices if isinstance(i, int) and 0 <= i < len(articles)]`:
the articles picked by the index scan.  A non-list reply becomes the empty
selection (`selected_indices = []`); Python `bool` is an `int` (True = 1). -/
def selectedTargets (v : Json) (articles : List Article) : List Article :=
  let selected : List Json := match v with | .arr l => l | _ => []
  selected.filterMap (fun j =>
    match j with
    | .num i => if 0 ≤ i ∧ i < (articles.length : Int) then articles.get? i.toNat else none
    | .bool b => articles.get? (if b then 1 else 0) |>.filter (fun _ => (if b then 1 else 0) < articles.length)
    | _ => none)

/-- Outcome of one attempt of the underlying chat-completions request in
`llm_client.OpenAIClient.generate`: a reply text or a raised exception's
string. -/
inductive ApiOutcome where
  | ok (content : String)
  | error (msg : String)

/-- `"rate_limit" in str(e).lower() or "429" in str(e)`. -/
def isRateLimitError (msg : String) : Bool :=
  substrB "rate_limit" (pyLower msg) || substrB "429" msg

/-- `llm_client.OpenAIClient.generate`, with the underlying request as an
oracle per attempt.  `max_retries = 3` attempts, unrolled; `base_delay` is
1.0 s and doubles per retry.  Returns (result, attempts made, sleeps in
seconds).  On success the content is `.strip()`ped; on a non-rate-limit
error, or a rate-limit error on the final attempt, the placeholder string
"\x7b\x7d" is returned instead of raising. -/
def OpenAIClient_generate (api : Nat → ApiOutcome) : String × Nat × List Nat :=
  match api 0 with
  | .ok c => (pyStrip c, 1, [])
  | .error m =>
    if isRateLimitError m then
      match api 1 with
      | .ok c => (pyStrip c, 2, [1])
      | .error m2 =>
        if isRateLimitError m2 then
          match api 2 with
          | .ok c => (pyStrip c, 3, [1, 2])
          | .error _ => ("\x7b\x7d", 3, [1, 2])
        else ("\x7b\x7d", 2, [1])
    else ("\x7b\x7d", 1, [])

/-- The fallback strategy in `Investigator._plan_search`:
`SearchStrategy(rationale="Error in strategy planning", databases=["law", "admrul", "prec"])`
(focus_keywords defaults to []). -/
def defaultStrategy : SearchStrategy :=
  ⟨"Error in strategy planning", ["law", "admrul", "prec"], []⟩

/-- `SearchStrategy(**data)` on the parsed judgment reply: requires a dict
with a string `rationale`; `databases` (default ["law", "admrul"]) and
`focus_keywords` (default []) must be lists of strings when present.
`none` models the pydantic/TypeError path. -/
def parseStrategy : Option Json → Option SearchStrategy
  | some (.obj d) => do
    let rationale ← (getKey d "rationale").bind asStr
    let databases ← match getKey d "databases" with
      | none => some ["law", "admrul"]
      | some (.arr l) => l.mapM asStr
      | some _ => none
    let focus ← match getKey d "focus_keywords" with
      | none => some []
      | some (.arr l) => l.mapM asStr
      | some _ => none
    pure ⟨rationale, databases, focus⟩
  | _ => none

/-- `Investigator._plan_search`: one judgment call; on any parse or
validation failure return `defaultStrategy` instead of raising. -/
def plan_search (env : Env) (_action : AtomicAction) (s : InvState) :
    SearchStrategy × InvState :=
  let g := genLLM env s
  ((parseStrategy g.1).getD defaultStrategy, g.2)

/-- `Investigator._generate_ai_queries`: `json_repair.loads(response)[:3]`,
falling back to `[action.action]` on a slicing TypeError.  A string reply is
sliced to its first three characters and later iterated character-wise, so
it is modelled as the corresponding list of one-character queries (an empty
string is falsy like an empty list and is replaced at the call site). -/
def generate_ai_queries (env : Env) (action : AtomicAction) (s : InvState) :
    List Json × InvState :=
  let g := genLLM env s
  (match g.1 with
   | some (.arr l) => l.take 3
   | some (.str t) => (t.toList.take 3).map (fun c => Json.str (String.mk [c]))
   | _ => [.str action.action], g.2)

/-- `Investigator._generate_prec_keywords`: parse a list of strings (a
non-list becomes `[str(parsed)]`), clean it, keep the first five.  A non-str
element raises inside `re.sub` and the whole call degrades to `[]`. -/
def generate_prec_keywords (env : Env) (_action : AtomicAction) (s : InvState) :
    List String × InvState :=
  let g := genLLM env s
  (match g.1 with
   | none => []
   | some (.arr l) =>
     match l.mapM asStr with
     | some strs => (clean_keywords strs).take 5
     | none => []
   | some v => (clean_keywords [pyStr v]).take 5, g.2)

/-- The inner matching loop of `_select_best_candidates` for one returned
name: walk the candidates in order, compute
`item.get('법령명한글') or item.get('행정규칙명')` and return the first item
matching by containment in either direction; a missing name raises a
TypeError (`.error`), as does a non-string selected name at the caller. -/
def findNameMatch (nm : String) : List Candidate → Except Unit (Option Candidate)
  | [] => .ok none
  | it :: rest =>
    match pyOrOpt it.lawNameKo it.admrulName with
    | none => .error ()
    | some inm =>
      if substrB nm inm || substrB inm nm then .ok (some it)
      else findNameMatch nm rest

/-- The outer matching loop of `_select_best_candidates`: for each selected
name append its first match (if any); any TypeError (a non-string selected
name, or a candidate without a name) aborts the whole try block. -/
def matchNamesAux (cands : List Candidate) :
    List Json → List Candidate → Except Unit (List Candidate)
  | [], acc => .ok acc
  | j :: rest, acc =>
    match j with
    | .str nm =>
      match findNameMatch nm cands with
      | .ok (some it) => matchNamesAux cands rest (acc ++ [it])
      | .ok none => matchNamesAux cands rest acc
      | .error _ => .error ()
    | _ => .error ()

def matchNames (names : List Json) (cands : List Candidate) :
    Except Unit (List Candidate) :=
  matchNamesAux cands names []

/-- `Investigator._select_best_candidates`: empty input returns empty with
no judgment call; more than 30 candidates are truncated to 30; the judgment
service picks names (a non-list reply is wrapped as `[str(reply)]`); on no
match or any exception fall back to the first 10 candidates. -/
def select_best_candidates (env : Env) (candidates : List Candidate)
    (_action_text : String) (s : InvState) : List Candidate × InvState :=
  if candidates.isEmpty then ([], s)
  else
    let candidates := if candidates.length > 30 then candidates.take 30 else candidates
    let g := genLLM env s
    match g.1 with
    | none => (candidates.take 10, g.2)
    | some v =>
      let names : List Json := match v with | .arr l => l | x => [.str (pyStr x)]
      match matchNames names candidates with
      | .error _ => (candidates.take 10, g.2)
      | .ok final_items =>
        if final_items.isEmpty then (candidates.take 10, g.2) else (final_items, g.2)

/-- The fallback critique result `\x7b"status": "PASS", "new_keywords": []\x7d`. -/
def defaultCrit : List (String × Json) :=
  [("status", .str "PASS"), ("new_keywords", .arr [])]

/-- `Investigator._critique`: one judgment call; a non-dict or unparsable
reply degrades to `defaultCrit`. -/
def critique (env : Env) (_action_text : String) (_evidence : List String)
    (s : InvState) : List (String × Json) × InvState :=
  let g := genLLM env s
  (match g.1 with
   | some (.obj d) => d
   | _ => defaultCrit, g.2)

/-- Deduplicate raw precedent hits by 판례일련번호 (falsy ids are skipped),
setting each kept item's 법령명한글 to
`f"[판례] \x7bitem.get('판례내용') or item.get('사건명')\x7d"`. -/
def dedupPrec (items : List Candidate) : List Candidate :=
  (items.foldl (fun (acc : List Candidate × List String) item =>
    match item.serialNo with
    | some pid =>
      if pid ≠ "" ∧ pid ∉ acc.2 then
        (acc.1 ++ [{ item with
          lawNameKo := some ("[판례] " ++ optStr (pyOrOpt item.precContent item.caseName)) }],
         acc.2 ++ [pid])
      else acc
    | none => acc) ([], [])).1

/-- `MAX_ANALYSIS_DOCS` from config.py. -/
def MAX_ANALYSIS_DOCS : Nat := 20

/-- `Investigator._search_phase`.  `keywords` and `prec_keywords` are the
two query lists (critic retry keywords may be arbitrary JSON values, hence
`List Json`; the in-place `list.extend` aliasing when a caller passes the
same list twice is immaterial to the properties proved and is modelled by
value).  Phase 1 queries the AI law/admrul search per query; phase 2 runs
the precedent search, deduplicates and selects candidates, then crashes on
any non-empty selection because the content-fetch method is missing from
the imported law API (see `searchPhase2`).  The collected batch is capped
at `MAX_ANALYSIS_DOCS`.  `searchRuns` is bumped once per invocation
(instrumentation); `Except InvState` models an uncaught Python exception,
its error value carrying the instrumentation state at the raise. -/
def searchPhase1 (env : Env) (keywords : List Json) (action : AtomicAction)
    (target_dbs : List String) (s : InvState) :
    List RawItem × List String × InvState :=
  if "law" ∈ target_dbs ∨ "admrul" ∈ target_dbs then
    let gq :=
      if !keywords.isEmpty then (keywords, s) else generate_ai_queries env action s
    let ai_queries := if gq.1.isEmpty then [Json.str action.action] else gq.1
    let pairs := ai_queries.flatMap (fun q =>
      (if "law" ∈ target_dbs then [(q, 0)] else []) ++
      (if "admrul" ∈ target_dbs then [(q, 2)] else []))
    let s2 := { gq.2 with netCalls := gq.2.netCalls + pairs.length }
    let items := (pairs.map (fun p => env.aiSearch p.1 p.2)).flatten
    (items.map (fun it => RawItem.mk "ai_result"
        (it.law_name ++ " " ++ it.article_title) it.content it.link it.raw),
     items.map (·.law_name), s2)
  else ([], [], s)

def searchPhase2 (env : Env) (prec_kws : List Json) (action : AtomicAction)
    (target_dbs : List String) (collected : List RawItem)
    (found_law_titles : List String) (s : InvState) :
    Except InvState (List RawItem × InvState) :=
  if "prec" ∈ target_dbs then
    -- list(set(found_law_titles)): CPython set order is unspecified;
    -- modelled by one fixed duplicate-free order (List.dedup)
    let uniq := found_law_titles.dedup
    let queries :=
      (uniq.take 2).flatMap (fun t => prec_kws.map (fun kw => (kw, some t))) ++
      prec_kws.map (fun kw => (kw, (none : Option String)))
    let s4 := { s with netCalls := s.netCalls + queries.length }
    let prec_candidates :=
      dedupPrec ((queries.map (fun q => env.searchListPrec q.1 q.2)).flatten)
    let sel :=
      if !prec_candidates.isEmpty then
        select_best_candidates env (prec_candidates.take 30) action.action s4
      else ([], s4)
    -- investigator.py:397 evaluates `law_api.get_content_from_item(item)` per
    -- selected precedent, but the `NationalLawAPI` class defined in
    -- src/law_api.py has no such method (it survives only in the superseded
    -- src/miri.py copy; law_api.py:310 still carries its orphaned dead body
    -- line).  For a non-empty selection the first iteration of the fetch
    -- comprehension therefore raises an AttributeError that nothing catches
    -- (`.error`, carrying the instrumentation state at the raise); an empty
    -- selection never evaluates the attribute and proceeds with nothing
    -- appended.
    if sel.1.isEmpty then .ok (collected, sel.2)
    else .error sel.2
  else .ok (collected, s)

def search_phase (env : Env) (keywords prec_keywords : List Json)
    (action : AtomicAction) (strategy : SearchStrategy) (s : InvState) :
    Except InvState (List RawItem × InvState) :=
  let s1 := { s with searchRuns := s.searchRuns + 1 }
  let kws := keywords ++ strategy.focus_keywords.map Json.str
  let prec_kws := prec_keywords ++ strategy.focus_keywords.map Json.str
  let target_dbs := strategy.databases
  -- [Phase 1] AI Search (Law & AdmRul)
  let ph1 := searchPhase1 env kws action target_dbs s1
  -- [Phase 2] Precedent Search (raises out of _search_phase on a non-empty
  -- precedent selection, see searchPhase2)
  match searchPhase2 env prec_kws action target_dbs ph1.1 ph1.2.1 ph1.2.2 with
  | .error s2 => .error s2
  | .ok ph2 =>
    let collected := if ph2.1.length > MAX_ANALYSIS_DOCS then
      ph2.1.take MAX_ANALYSIS_DOCS else ph2.1
    .ok (collected, ph2.2)

/-- The legacy document id of `_analyze_full_text`:
`law_api._get_unique_id(raw_data)`, falling back to `f"\x7btitle\x7d_\x7burl\x7d"`
when that yields "Unknown". -/
def legacyDocId (raw : RawDoc) (title url : String) : String :=
  if raw.uniqueId = "Unknown" then title ++ "_" ++ url else raw.uniqueId

/-- The cache document id resolved at the top of `_analyze_full_text`. -/
def analyzeDocId (category : String) (raw : RawDoc) (title url : String) : String :=
  if category = "ai_result" then "AI_" ++ title ++ "_" ++ url
  else legacyDocId raw title url

/-- The tail of `_analyze_full_text` shared by every non-index path: direct
analysis for texts under 5000 characters (sentinel '중립', NOT written to the
analysis cache — the function returns before the cache store), and chunked
analysis otherwise (one judgment call per chunk, sentinel 'Neutral', result
cached). -/
def analyze_direct_or_chunk (env : Env) (text url : String)
    (cache_key : String × String) (s : InvState) :
    List DocumentReview × InvState :=
  if text.length < 5000 then
    let g := genLLM env s
    (reviewsFromResp g.1 "중립" url, g.2)
  else
    let chunks := chunksOfText text.toList
    let r := chunks.foldl
      (fun (acc : List DocumentReview × InvState) _chunk =>
        let g := genLLM env acc.2
        (acc.1 ++ reviewsFromResp g.1 "Neutral" url, g.2)) ([], s)
    (r.1, { r.2 with cache := cacheSet r.2.cache cache_key r.1 })

/-- `Investigator._analyze_full_text`.  Fuel bounds the single precedent
recursion (the recursive call passes the empty raw payload, whose article
list is empty, so it can never recurse again; every caller uses fuel 2).
Paths in source order: cache hit (urls rewritten in place), ai_result
direct analysis (sentinel 'Neutral', cached), precedent shortcut (recurse on
the joined issue/holding text, nothing stored under the outer key), index
scan for legacy documents with more than 5 articles (empty selection is
cached as an explicit negative; an unparsable reply falls through), then
direct or chunked analysis. -/
def analyze_full_text (env : Env) :
    Nat → String → AtomicAction → String → String → String → RawDoc →
    InvState → List DocumentReview × InvState
  | 0, _, _, _, _, _, _, s => ([], s)
  | fuel + 1, text, action, category, title, url, raw, s =>
    let cache_key := (action.action, analyzeDocId category raw title url)
    match cacheFind s.cache cache_key with
    | some cached =>
      let rewritten := cached.map (fun r => { r with url := url })
      (rewritten, { s with cache := cacheSet s.cache cache_key rewritten })
    | none =>
      if category = "ai_result" then
        let g := genLLM env s
        let reviews := reviewsFromResp g.1 "Neutral" url
        (reviews, { g.2 with cache := cacheSet g.2.cache cache_key reviews })
      else
        if category = "law" ∨ category = "admrul" ∨ category = "prec" then
          let articles := raw.articles
          if category = "prec" ∧ articles ≠ [] then
            analyze_full_text env fuel (joinArticles articles) action category
              title url emptyRaw s
          else if articles.length > 5 then
            let g := genLLM env s
            match g.1 with
            | none => analyze_direct_or_chunk env text url cache_key g.2
            | some v =>
              let target_articles := selectedTargets v articles
              if target_articles.isEmpty then
                ([], { g.2 with cache := cacheSet g.2.cache cache_key [] })
              else
                let r := target_articles.foldl
                  (fun (acc : List DocumentReview × InvState) _art =>
                    let g2 := genLLM env acc.2
                    (acc.1 ++ reviewsFromResp g2.1 "Neutral" url, g2.2)) ([], g.2)
                (r.1, { r.2 with cache := cacheSet r.2.cache cache_key r.1 })
          else analyze_direct_or_chunk env text url cache_key s
        else analyze_direct_or_chunk env text url cache_key s

/-- The loop body of `_extract_evidence`: `if not text or len(text) < 50:
continue`, otherwise analyse the document and append its reviews. -/
def extractStep (env : Env) (action : AtomicAction)
    (acc : List DocumentReview × InvState) (item : RawItem) :
    List DocumentReview × InvState :=
  if item.text = "" ∨ item.text.length < 50 then acc
  else
    let p := analyze_full_text env 2 item.text action item.category
      item.title item.url item.raw acc.2
    (acc.1 ++ p.1, p.2)

/-- `Investigator._extract_evidence`: documents whose fetched text is empty
or shorter than 50 characters are skipped before analysis; the rest are
analysed in order and their review lists concatenated. -/
def extract_evidence (env : Env) (raw_data : List RawItem)
    (action : AtomicAction) (s : InvState) : List DocumentReview × InvState :=
  if raw_data.isEmpty then ([], s)
  else raw_data.foldl (extractStep env action) ([], s)

/-- `critic_res.get('new_keywords', [])` coerced to the query list handed to
`_search_phase`; a non-list value here would raise an AttributeError inside
`_search_phase`'s `list.extend` before any retrieval (outside the critic
prompt's contract) and is modelled as no keywords. -/
def critKeywords (crit : List (String × Json)) : List Json :=
  match getKey crit "new_keywords" with
  | some (.arr l) => l
  | _ => []

/-- Whether a critique dict's status equals the given string under Python
`==`. -/
def critStatusIs (crit : List (String × Json)) (st : String) : Bool :=
  match getKey crit "status" with
  | some (.str v) => v = st
  | _ => false

/-- The per-action body of `Investigator.execute` (lines 750-785): plan,
generate precedent keywords, one retrieval + extraction pass, critique; a
second retrieval pass runs only when the critique's status equals "RETRY".
An uncaught exception inside `_search_phase` propagates (`.error`). -/
def executeAction (env : Env) (action : AtomicAction) (s : InvState) :
    Except InvState (List DocumentReview × InvState) :=
  let p1 := plan_search env action s
  let strategy := p1.1
  let keywords : List Json := []
  let p2 := generate_prec_keywords env action p1.2
  match search_phase env keywords (p2.1.map Json.str) action strategy p2.2 with
  | .error s2 => .error s2
  | .ok p3 =>
    let p4 := extract_evidence env p3.1 action p3.2
    let reviews := p4.1
    let p5 := critique env action.action (reviews.map (·.summary)) p4.2
    if critStatusIs p5.1 "RETRY" then
      let new_kws := critKeywords p5.1
      -- Python passes the same list object for both arguments here
      match search_phase env new_kws new_kws action strategy p5.2 with
      | .error s2 => .error s2
      | .ok p6 =>
        let p7 := extract_evidence env p6.1 action p6.2
        .ok (reviews ++ p7.1, p7.2)
    else .ok (reviews, p5.2)

/-- First-seen deduplication of the final review list by
(law_name, key_clause). -/
def dedupReviews (l : List DocumentReview) : List DocumentReview :=
  (l.foldl (fun (acc : List DocumentReview × List (String × String)) r =>
    if (r.law_name, r.key_clause) ∈ acc.2 then acc
    else (acc.1 ++ [r], acc.2 ++ [(r.law_name, r.key_clause)])) ([], [])).1

/-- The `for action in scenario.actions` loop of `execute`: an uncaught
exception in one action's processing aborts the remaining actions. -/
def executeActions (env : Env) :
    List AtomicAction → List DocumentReview × InvState →
    Except InvState (List DocumentReview × InvState)
  | [], acc => .ok acc
  | a :: rest, acc =>
    match executeAction env a acc.2 with
    | .error s2 => .error s2
    | .ok p => executeActions env rest (acc.1 ++ p.1, p.2)

/-- `Investigator.execute`: process every action of the scenario, then
deduplicate by (law_name, key_clause), cap at 50, and return the formatted
evidence lines together with the unique reviews; an uncaught exception
propagates to the caller and no EvidenceSet is returned. -/
def execute (env : Env) (scenario : Scenario) (s : InvState) :
    Except InvState ((List String × List DocumentReview) × InvState) :=
  match executeActions env scenario.actions ([], s) with
  | .error s2 => .error s2
  | .ok r =>
    let unique_reviews := dedupReviews r.1
    let unique_reviews := if unique_reviews.length > 50 then
      unique_reviews.take 50 else unique_reviews
    .ok ((unique_reviews.map (fun r =>
        "- " ++ r.law_name ++ " " ++ r.key_clause ++ ": " ++ r.summary),
      unique_reviews), r.2)

/-- The evidence summary line of `_process_action`. -/
def fmtEvidence (r : DocumentReview) : String :=
  "[" ++ r.status ++ "] " ++ r.law_name ++ " " ++ r.key_clause ++ ": " ++ r.summary

/-- The merge step of `_process_action`: append the new reviews whose
`f"\x7blaw_name\x7d-\x7bkey_clause\x7d"` key is not already present. -/
def mergeDedup (final_evidence new_reviews : List DocumentReview) :
    List DocumentReview :=
  (new_reviews.foldl (fun (acc : List DocumentReview × List String) r =>
    let key := r.law_name ++ "-" ++ r.key_clause
    if key ∈ acc.2 then acc else (acc.1 ++ [r], acc.2 ++ [key]))
    (final_evidence,
     final_evidence.map (fun r => r.law_name ++ "-" ++ r.key_clause))).1

/-- `Investigator._process_action` (defined but not reached from `execute`):
the `for attempt in range(max_retries + 1)` loop with `max_retries = 1`,
unrolled.  The retry runs only after a non-PASS critique with truthy
new_keywords, and the loop always stops after the second attempt. -/
def process_action (env : Env) (action : AtomicAction) (s : InvState) :
    Except InvState (List DocumentReview × InvState) :=
  let p1 := generate_prec_keywords env action s
  let prec_keywords := p1.1
  let p2 := plan_search env action p1.2
  let strategy := p2.1
  match search_phase env [] (prec_keywords.map Json.str) action strategy p2.2 with
  | .error s2 => .error s2
  | .ok p3 =>
    let p4 := extract_evidence env p3.1 action p3.2
    let final_evidence := mergeDedup [] p4.1
    let p5 := critique env action.action (final_evidence.map fmtEvidence) p4.2
    if critStatusIs p5.1 "PASS" then .ok (final_evidence, p5.2)
    else
      let nkv := (getKey p5.1 "new_keywords").getD (.arr [])
      if pyTruthy nkv then
        let kws : List Json := match nkv with | .arr l => l | _ => []
        match search_phase env kws (prec_keywords.map Json.str)
          action strategy p5.2 with
        | .error s2 => .error s2
        | .ok p6 =>
          let p7 := extract_evidence env p6.1 action p6.2
          let final_evidence2 := mergeDedup final_evidence p7.1
          let p8 := critique env action.action (final_evidence2.map fmtEvidence) p7.2
          .ok (final_evidence2, p8.2)
      else .ok (final_evidence, p5.2)

/-- The chunking contract: chunks are exactly `text[i:i+4000]` for the
starts `i = 0, 3700, 7400, …`; every character index is covered by some
chunk; and each pair of consecutive chunks other than the pair ending in the
final chunk shares exactly 300 characters (the last 300 of the earlier chunk
are the first 300 of the later one). -/
def ChunkingSpec (cs : List Char) : Prop :=
  (chunksOfText cs = (chunkStarts cs.length).map (fun i => (cs.drop i).take 4000))
  ∧ (∀ k, k < (chunkStarts cs.length).length →
      (chunkStarts cs.length)[k]? = some (3700 * k))
  ∧ (∀ j, j < cs.length → ∃ k, k < (chunkStarts cs.length).length ∧
      3700 * k ≤ j ∧ j < 3700 * k + 4000)
  ∧ (∀ k, k + 2 < (chunksOfText cs).length →
      ∃ a b, (chunksOfText cs)[k]? = some a ∧ (chunksOfText cs)[k + 1]? = some b ∧
        a.drop 3700 = b.take 300 ∧ (a.drop 3700).length = 300)

/-- Every chunk start produced by `chunkStarts` is below the text length. -/
theorem chunkStarts_lt (L m : Nat) (hL : 1 ≤ L)
    (hm : m < (chunkStarts L).length) : 3700 * m ≤ L - 1 := by
  have hN : (L + 3699) / 3700 = (L - 1) / 3700 + 1 := by
    have h1 : L + 3699 = (L - 1) + 3700 := by omega
    rw [h1, Nat.add_div_right _ (by norm_num)]
  have hlen : (chunkStarts L).length = (L + 3699) / 3700 := by
    simp [chunkStarts]
  rw [hlen, hN] at hm
  have hm' : m ≤ (L - 1) / 3700 := by omega
  calc 3700 * m ≤ 3700 * ((L - 1) / 3700) := Nat.mul_le_mul_left _ hm'
    _ ≤ L - 1 := Nat.mul_div_le _ _

/-- C6: for every text of length at least 5000, the sliding-window split of
`_analyze_full_text` produces the substrings `text[i:i+4000]` for
`i = 0, 3700, 7400, …`, which together cover every index of the text with no
gap, and each pair of consecutive chunks not involving the final chunk
overlaps in exactly 300 characters. -/
theorem chunking_covers_and_overlaps (cs : List Char) (h : 5000 ≤ cs.length) :
    ChunkingSpec cs := by
  have hL : 1 ≤ cs.length := by omega
  have hstart : ∀ k, k < (chunkStarts cs.length).length →
      (chunkStarts cs.length)[k]? = some (3700 * k) := by
    intro k hk
    have hk' : k < (cs.length + 3699) / 3700 := by
      simpa [chunkStarts] using hk
    simp [chunkStarts, List.getElem?_map, List.getElem?_range, hk', Nat.mul_comm]
  refine ⟨rfl, hstart, ?_, ?_⟩
  · -- coverage
    intro j hj
    refine ⟨j / 3700, ?_, ?_, ?_⟩
    · have hN : (cs.length + 3699) / 3700 = (cs.length - 1) / 3700 + 1 := by
        have h1 : cs.length + 3699 = (cs.length - 1) + 3700 := by omega
        rw [h1, Nat.add_div_right _ (by norm_num)]
      have hle : j / 3700 ≤ (cs.length - 1) / 3700 :=
        Nat.div_le_div_right (by omega)
      simp only [chunkStarts, List.length_map, List.length_range, hN]
      omega
    · calc 3700 * (j / 3700) = j / 3700 * 3700 := Nat.mul_comm _ _
        _ ≤ j := Nat.div_mul_le_self _ _
    · have hmod := Nat.div_add_mod j 3700
      have : j % 3700 < 3700 := Nat.mod_lt _ (by norm_num)
      omega
  · -- overlap of consecutive non-final chunks
    intro k hk
    have hlen : (chunksOfText cs).length = (chunkStarts cs.length).length := by
      simp [chunksOfText]
    have hk2 : k + 2 < (chunkStarts cs.length).length := by omega
    have hk0 : k < (chunkStarts cs.length).length := by omega
    have hk1 : k + 1 < (chunkStarts cs.length).length := by omega
    have hbound := chunkStarts_lt cs.length (k + 2) hL hk2
    have hck : (chunksOfText cs)[k]? = some ((cs.drop (3700 * k)).take 4000) := by
      simp only [chunksOfText, List.getElem?_map]
      rw [hstart k hk0]
      rfl
    have hck1 : (chunksOfText cs)[k + 1]? =
        some ((cs.drop (3700 * (k + 1))).take 4000) := by
      simp only [chunksOfText, List.getElem?_map]
      rw [hstart (k + 1) hk1]
      rfl
    refine ⟨_, _, hck, hck1, ?_, ?_⟩
    · rw [List.drop_take, List.drop_drop, List.take_take]
      simp only [show (4000 : Nat) - 3700 = 300 from rfl,
        show min (300 : Nat) 4000 = 300 from rfl]
      congr 2
    · have hfull : 3700 * k + 4000 ≤ cs.length := by
        have : 3700 * (k + 2) = 3700 * k + 7400 := by ring
        omega
      rw [List.length_drop, List.length_take, List.length_drop]
      omega

/-- Witness for C6 at a concrete 5000-character text. -/
theorem chunking_covers_and_overlaps_witness :
    5000 ≤ (List.replicate 5000 'a').length ∧ ChunkingSpec (List.replicate 5000 'a') :=
  ⟨by rw [List.length_replicate], chunking_covers_and_overlaps _ (by rw [List.length_replicate])⟩

/-- C8: for every behaviour of the underlying chat-completions request, the
judgment-service wrapper makes at most 3 attempts, retries only on
rate-limit-class errors sleeping 1 s then 2 s (exponential backoff, base 1 s,
doubling — the sleeps are always the corresponding prefix of [1, 2]), and
either returns a successful attempt's stripped content or degrades to the
empty-object placeholder string instead of raising. -/
theorem generate_retries_bounded (api : Nat → ApiOutcome) :
    (OpenAIClient_generate api).2.1 ≤ 3
    ∧ (OpenAIClient_generate api).2.2 =
        [1, 2].take ((OpenAIClient_generate api).2.1 - 1)
    ∧ ((OpenAIClient_generate api).1 = "\x7b\x7d" ∨
        ∃ k, k < 3 ∧ ∃ c, api k = ApiOutcome.ok c ∧
          (OpenAIClient_generate api).1 = pyStrip c) := by
  unfold OpenAIClient_generate
  cases h0 : api 0 with
  | ok c => exact ⟨by norm_num, rfl, Or.inr ⟨0, by norm_num, c, h0, rfl⟩⟩
  | error m =>
    by_cases hr : isRateLimitError m = true
    · simp only [hr, if_true]
      cases h1 : api 1 with
      | ok c => exact ⟨by norm_num, rfl, Or.inr ⟨1, by norm_num, c, h1, rfl⟩⟩
      | error m2 =>
        by_cases hr2 : isRateLimitError m2 = true
        · simp only [hr2, if_true]
          cases h2 : api 2 with
          | ok c => exact ⟨by norm_num, rfl, Or.inr ⟨2, by norm_num, c, h2, rfl⟩⟩
          | error m3 => exact ⟨by norm_num, rfl, Or.inl rfl⟩
        · simp only [hr2, if_false]
          exact ⟨by norm_num, rfl, Or.inl rfl⟩
    · simp only [hr, if_false]
      exact ⟨by norm_num, rfl, Or.inl rfl⟩

/-- Skipped documents leave the extraction fold untouched: folding over a
batch equals folding over the batch with the short documents removed. -/
theorem extract_foldl_filter (env : Env) (action : AtomicAction) :
    ∀ (l : List RawItem) (acc : List DocumentReview × InvState),
    l.foldl (extractStep env action) acc =
      (l.filter (fun item =>
        !(item.text = "" ∨ item.text.length < 50 : Bool))).foldl
        (extractStep env action) acc := by
  intro l
  induction l with
  | nil => intro acc; rfl
  | cons hd tl ih =>
    intro acc
    by_cases hhd : hd.text = "" ∨ hd.text.length < 50
    · have hstep : extractStep env action acc hd = acc := by
        unfold extractStep
        rw [if_pos hhd]
      have hfilter : (hd :: tl).filter (fun item =>
          !(item.text = "" ∨ item.text.length < 50 : Bool)) =
          tl.filter (fun item =>
            !(item.text = "" ∨ item.text.length < 50 : Bool)) := by
        rw [List.filter_cons]
        simp [hhd]
      rw [List.foldl_cons, hstep, hfilter]
      exact ih acc
    · have hfilter : (hd :: tl).filter (fun item =>
          !(item.text = "" ∨ item.text.length < 50 : Bool)) =
          hd :: tl.filter (fun item =>
            !(item.text = "" ∨ item.text.length < 50 : Bool)) := by
        rw [List.filter_cons]
        simp [hhd]
      rw [List.foldl_cons, hfilter, List.foldl_cons]
      exact ih _

/-- C10: evidence extraction behaves identically on a raw-document batch and
on that batch with the documents whose fetched text is missing or shorter
than 50 characters removed — such documents trigger no judgment call and
contribute no review. -/
theorem extract_evidence_skips_short (env : Env) (raw_data : List RawItem)
    (action : AtomicAction) (s : InvState) :
    extract_evidence env raw_data action s =
      extract_evidence env
        (raw_data.filter (fun item =>
          !(item.text = "" ∨ item.text.length < 50 : Bool))) action s := by
  unfold extract_evidence
  by_cases h : raw_data.isEmpty
  · have : raw_data = [] := List.isEmpty_iff.mp h
    subst this
    rfl
  · rw [if_neg h]
    by_cases h2 : (raw_data.filter (fun item =>
        !(item.text = "" ∨ item.text.length < 50 : Bool))).isEmpty
    · rw [if_pos h2]
      rw [extract_foldl_filter env action raw_data ([], s),
        List.isEmpty_iff.mp h2]
      rfl
    · rw [if_neg h2]
      exact extract_foldl_filter env action raw_data ([], s)

/-- A shared empty starting state (fresh Investigator instance). -/
def s0 : InvState := ⟨[], 0, 0, 0⟩

/-- A shared concrete action. -/
def a0 : AtomicAction := ⟨"user", "do the act", "target"⟩

/-- C9: whenever the strategy-planning judgment reply fails validation
(including the failure placeholder, whose parse is the empty dict), the
planner returns the default strategy requesting all of law, admrul and prec
with no supplementary keywords — and, being a total function, never
raises. -/
theorem plan_search_default (env : Env) (action : AtomicAction) (s : InvState)
    (h : parseStrategy (env.llm s.llmCalls) = none) :
    (plan_search env action s).1 = defaultStrategy ∧
    (plan_search env action s).1.databases = ["law", "admrul", "prec"] ∧
    (plan_search env action s).1.focus_keywords = [] := by
  unfold plan_search genLLM
  simp only [h]
  exact ⟨rfl, rfl, rfl⟩

/-- Concrete environment whose judgment service always answers with the
parsed failure placeholder (the empty dict). -/
def env9 : Env :=
  ⟨fun _ => some (.obj []), fun _ _ => [], fun _ _ => []⟩

/-- Witness for C9: on the "\x7b\x7d" failure placeholder the planner
returns the three-source default strategy. -/
theorem plan_search_default_witness :
    parseStrategy (env9.llm s0.llmCalls) = none ∧
    ((plan_search env9 a0 s0).1 = defaultStrategy ∧
     (plan_search env9 a0 s0).1.databases = ["law", "admrul", "prec"] ∧
     (plan_search env9 a0 s0).1.focus_keywords = []) :=
  ⟨rfl, plan_search_default env9 a0 s0 rfl⟩

/-- A successful inner name match returns an element of the scanned list. -/
theorem findNameMatch_mem (nm : String) :
    ∀ (l : List Candidate) (it : Candidate),
    findNameMatch nm l = .ok (some it) → it ∈ l := by
  intro l
  induction l with
  | nil => intro it h; simp [findNameMatch] at h
  | cons hd tl ih =>
    intro it h
    unfold findNameMatch at h
    split at h
    · simp at h
    · split at h
      · cases h
        exact List.mem_cons_self _ _
      · exact List.mem_cons_of_mem _ (ih it h)

/-- The outer matching loop only accumulates elements of the candidate
list. -/
theorem matchNamesAux_mem (cands : List Candidate) :
    ∀ (names : List Json) (acc res : List Candidate),
    (∀ r ∈ acc, r ∈ cands) → matchNamesAux cands names acc = .ok res →
    ∀ r ∈ res, r ∈ cands := by
  intro names
  induction names with
  | nil =>
    intro acc res hacc h r hr
    cases h
    exact hacc r hr
  | cons j rest ih =>
    intro acc res hacc h r hr
    unfold matchNamesAux at h
    cases j with
    | str nm =>
      simp only at h
      split at h
      next it hf =>
        refine ih (acc ++ [it]) res ?_ h r hr
        intro x hx
        rcases List.mem_append.mp hx with hx | hx
        · exact hacc x hx
        · rw [List.mem_singleton.mp hx]
          exact findNameMatch_mem nm cands it hf
      next hf => exact ih acc res hacc h r hr
      next => simp at h
    | num n => simp at h
    | bool b => simp at h
    | arr l => simp at h
    | obj l => simp at h
    | null => simp at h

/-- C7: the candidate selector only ever returns elements of its input
candidate list — on the normal path, on the judgment-failure fallback and on
the no-match fallback alike. -/
theorem select_best_candidates_subset (env : Env) (candidates : List Candidate)
    (action_text : String) (s : InvState) :
    ∀ r ∈ (select_best_candidates env candidates action_text s).1,
      r ∈ candidates := by
  intro r hr
  unfold select_best_candidates at hr
  by_cases he : candidates.isEmpty
  · rw [if_pos he] at hr
    simp at hr
  · rw [if_neg he] at hr
    have htr : ∀ x ∈ (if candidates.length > 30 then candidates.take 30
        else candidates), x ∈ candidates := by
      intro x hx
      by_cases h30 : candidates.length > 30
      · rw [if_pos h30] at hx
        exact List.take_subset _ _ hx
      · rw [if_neg h30] at hx
        exact hx
    set c30 := if candidates.length > 30 then candidates.take 30 else candidates with hc30
    cases hresp : env.llm s.llmCalls with
    | none =>
      simp only [genLLM, hresp] at hr
      exact htr r (List.take_subset _ _ hr)
    | some v =>
      simp only [genLLM, hresp] at hr
      split at hr
      next e hm => exact htr r (List.take_subset _ _ hr)
      next items hm =>
        split at hr
        · exact htr r (List.take_subset _ _ hr)
        · exact htr r (matchNamesAux_mem c30 _ [] items
            (by intro x hx; simp at hx) hm r hr)

/-- Concrete selector scenario: one candidate name picked verbatim by the
service. -/
def cand7 : Candidate := ⟨some "근로기준법", none, none, none, none⟩

def env7 : Env :=
  ⟨fun _ => some (.arr [.str "근로기준법"]), fun _ _ => [], fun _ _ => []⟩

/-- Witness for C7: a concretely selected candidate is an element of the
input list. -/
theorem select_best_candidates_subset_witness :
    cand7 ∈ (select_best_candidates env7 [cand7] "action" s0).1 ∧
    cand7 ∈ [cand7] := by
  have h : cand7 ∈ (select_best_candidates env7 [cand7] "action" s0).1 := by
    decide
  exact ⟨h, select_best_candidates_subset env7 [cand7] "action" s0 cand7 h⟩

/-- C5: for a statute or administrative rule whose parse yields more than 5
articles and whose table-of-contents scan selects no (in-range) article
index, a fresh extraction returns the empty list, stores the explicit
negative result in the cache, and makes exactly one judgment call — it does
not fall through to direct or chunked full-text analysis. -/
theorem analyze_index_scan_empty (env : Env) (text : String)
    (action : AtomicAction) (category title url : String) (raw : RawDoc)
    (s : InvState) (v : Json)
    (hcache : cacheFind s.cache (action.action, legacyDocId raw title url) = none)
    (hcat : category = "law" ∨ category = "admrul")
    (hart : raw.articles.length > 5)
    (hresp : env.llm s.llmCalls = some v)
    (hsel : selectedTargets v raw.articles = []) :
    analyze_full_text env 2 text action category title url raw s =
      ([], { s with
        cache := cacheSet s.cache (action.action, legacyDocId raw title url) [],
        llmCalls := s.llmCalls + 1 }) := by
  rcases hcat with h | h <;> subst h <;>
  · unfold analyze_full_text
    simp only [analyzeDocId, genLLM]
    simp only [hcache, hresp, hsel]
    simp
    split
    next cached hfound => rw [hcache] at hfound; exact absurd hfound (by simp)
    next hfound => rw [if_pos hart]

/-- A fold whose step preserves the retrieval counter preserves it. -/
theorem foldl_searchRuns {α : Type}
    (g : List DocumentReview × InvState → α → List DocumentReview × InvState)
    (hg : ∀ acc x, (g acc x).2.searchRuns = acc.2.searchRuns) (l : List α) :
    ∀ acc, (l.foldl g acc).2.searchRuns = acc.2.searchRuns := by
  induction l with
  | nil => intro acc; rfl
  | cons hd tl ih => intro acc; rw [List.foldl_cons, ih, hg]

theorem plan_search_searchRuns (env : Env) (a : AtomicAction) (s : InvState) :
    (plan_search env a s).2.searchRuns = s.searchRuns := rfl

theorem generate_ai_queries_searchRuns (env : Env) (a : AtomicAction)
    (s : InvState) :
    (generate_ai_queries env a s).2.searchRuns = s.searchRuns := rfl

theorem generate_prec_keywords_searchRuns (env : Env) (a : AtomicAction)
    (s : InvState) :
    (generate_prec_keywords env a s).2.searchRuns = s.searchRuns := rfl

theorem critique_searchRuns (env : Env) (t : String) (e : List String)
    (s : InvState) : (critique env t e s).2.searchRuns = s.searchRuns := rfl

theorem select_best_candidates_searchRuns (env : Env) (c : List Candidate)
    (t : String) (s : InvState) :
    (select_best_candidates env c t s).2.searchRuns = s.searchRuns := by
  unfold select_best_candidates
  split
  · rfl
  · dsimp only
    repeat' split
    all_goals rfl

theorem analyze_direct_or_chunk_searchRuns (env : Env) (text url : String)
    (ck : String × String) (s : InvState) :
    (analyze_direct_or_chunk env text url ck s).2.searchRuns = s.searchRuns := by
  unfold analyze_direct_or_chunk
  split
  · rfl
  · dsimp only
    apply foldl_searchRuns
    intro acc x
    rfl

theorem analyze_full_text_searchRuns (env : Env) :
    ∀ (fuel : Nat) (text : String) (action : AtomicAction)
      (category title url : String) (raw : RawDoc) (s : InvState),
    (analyze_full_text env fuel text action category title url raw s).2.searchRuns
      = s.searchRuns := by
  intro fuel
  induction fuel with
  | zero => intros; rfl
  | succ n ih =>
    intro text action category title url raw s
    unfold analyze_full_text
    dsimp only
    repeat' split
    all_goals first
      | rfl
      | exact ih _ _ _ _ _ _ _
      | exact analyze_direct_or_chunk_searchRuns _ _ _ _ _
      | (dsimp only
         apply foldl_searchRuns
         intro acc x
         rfl)

theorem extract_evidence_searchRuns (env : Env) (raw : List RawItem)
    (action : AtomicAction) (s : InvState) :
    (extract_evidence env raw action s).2.searchRuns = s.searchRuns := by
  unfold extract_evidence
  split
  · rfl
  · refine foldl_searchRuns _ ?_ _ ([], s)
    intro acc x
    unfold extractStep
    split
    · rfl
    · exact analyze_full_text_searchRuns env 2 _ _ _ _ _ _ _

theorem searchPhase1_searchRuns (env : Env) (k : List Json)
    (a : AtomicAction) (dbs : List String) (s : InvState) :
    (searchPhase1 env k a dbs s).2.2.searchRuns = s.searchRuns := by
  unfold searchPhase1
  split
  · dsimp only
    split <;> rfl
  · rfl

/-- The instrumentation state an execution ends with: the final state on
normal return, or the state carried by the uncaught exception. -/
def exState {α : Type} : Except InvState (α × InvState) → InvState
  | .ok r => r.2
  | .error s => s

theorem searchPhase2_searchRuns (env : Env) (p : List Json)
    (a : AtomicAction) (dbs : List String) (c : List RawItem)
    (f : List String) (s : InvState) :
    (exState (searchPhase2 env p a dbs c f s)).searchRuns = s.searchRuns := by
  unfold searchPhase2
  split
  · dsimp only
    repeat' split
    all_goals first
      | rfl
      | exact select_best_candidates_searchRuns _ _ _ _
  · rfl

theorem search_phase_searchRuns (env : Env) (k p : List Json)
    (a : AtomicAction) (st : SearchStrategy) (s : InvState) :
    (exState (search_phase env k p a st s)).searchRuns = s.searchRuns + 1 := by
  unfold search_phase
  dsimp only
  split
  next s2 heq =>
    have hc := congrArg (fun e => (exState e).searchRuns) heq
    dsimp only at hc
    rw [searchPhase2_searchRuns, searchPhase1_searchRuns] at hc
    exact hc.symm
  next ph2 heq =>
    have hc := congrArg (fun e => (exState e).searchRuns) heq
    dsimp only at hc
    rw [searchPhase2_searchRuns, searchPhase1_searchRuns] at hc
    exact hc.symm

/-- C4: in both per-action control flows (`execute`'s inline loop and
`_process_action`'s flag-and-break loop), processing a single Action runs
the retrieval phase at most twice — one initial pass plus at most one
retry — whatever the critique oracle returns, and whether the run completes
or dies in the broken precedent fetch (the bound holds for the
instrumentation state at the uncaught exception as well). -/
theorem retrieval_at_most_twice :
    (∀ (env : Env) (action : AtomicAction) (s : InvState),
      (exState (executeAction env action s)).searchRuns ≤ s.searchRuns + 2)
    ∧ (∀ (env : Env) (action : AtomicAction) (s : InvState),
      (exState (process_action env action s)).searchRuns ≤ s.searchRuns + 2) := by
  constructor
  · intro env action s
    unfold executeAction
    dsimp only
    split
    next s2 heq =>
      have hc := congrArg (fun e => (exState e).searchRuns) heq
      dsimp only at hc
      rw [search_phase_searchRuns] at hc
      simp only [exState, generate_prec_keywords_searchRuns,
        plan_search_searchRuns] at hc ⊢
      omega
    next p3 heq =>
      have hc := congrArg (fun e => (exState e).searchRuns) heq
      dsimp only at hc
      rw [search_phase_searchRuns] at hc
      simp only [exState, generate_prec_keywords_searchRuns,
        plan_search_searchRuns] at hc
      split
      · split
        next s2 heq2 =>
          have hc2 := congrArg (fun e => (exState e).searchRuns) heq2
          dsimp only at hc2
          rw [search_phase_searchRuns] at hc2
          simp only [exState, critique_searchRuns,
            extract_evidence_searchRuns] at hc2 ⊢
          omega
        next p6 heq2 =>
          have hc2 := congrArg (fun e => (exState e).searchRuns) heq2
          dsimp only at hc2
          rw [search_phase_searchRuns] at hc2
          simp only [exState, critique_searchRuns,
            extract_evidence_searchRuns] at hc2 ⊢
          omega
      · simp only [exState, critique_searchRuns, extract_evidence_searchRuns]
        omega
  · intro env action s
    unfold process_action
    dsimp only
    split
    next s2 heq =>
      have hc := congrArg (fun e => (exState e).searchRuns) heq
      dsimp only at hc
      rw [search_phase_searchRuns] at hc
      simp only [exState, generate_prec_keywords_searchRuns,
        plan_search_searchRuns] at hc ⊢
      omega
    next p3 heq =>
      have hc := congrArg (fun e => (exState e).searchRuns) heq
      dsimp only at hc
      rw [search_phase_searchRuns] at hc
      simp only [exState, generate_prec_keywords_searchRuns,
        plan_search_searchRuns] at hc
      split
      · simp only [exState, critique_searchRuns, extract_evidence_searchRuns]
        omega
      · split
        · split
          next s2 heq2 =>
            have hc2 := congrArg (fun e => (exState e).searchRuns) heq2
            dsimp only at hc2
            rw [search_phase_searchRuns] at hc2
            simp only [exState, critique_searchRuns,
              extract_evidence_searchRuns] at hc2 ⊢
            omega
          next p6 heq2 =>
            have hc2 := congrArg (fun e => (exState e).searchRuns) heq2
            dsimp only at hc2
            rw [search_phase_searchRuns] at hc2
            simp only [exState, critique_searchRuns,
              extract_evidence_searchRuns] at hc2 ⊢
            omega
        · simp only [exState, critique_searchRuns, extract_evidence_searchRuns]
          omega

/-- A statute payload with six parsed articles and a stable identifier. -/
def raw5 : RawDoc :=
  ⟨"L123", [⟨"제1조", "one"⟩, ⟨"제2조", "two"⟩, ⟨"제3조", "three"⟩,
    ⟨"제4조", "four"⟩, ⟨"제5조", "five"⟩, ⟨"제6조", "six"⟩]⟩

/-- Environment whose judgment service always selects no article index. -/
def env5 : Env :=
  ⟨fun _ => some (.arr []), fun _ _ => [], fun _ _ => []⟩

/-- Witness for C5: a six-article statute whose index scan selects nothing
yields the empty review list after exactly one judgment call. -/
theorem analyze_index_scan_empty_witness :
    cacheFind s0.cache (a0.action, legacyDocId raw5 "title" "url") = none ∧
    raw5.articles.length > 5 ∧
    selectedTargets (.arr []) raw5.articles = [] ∧
    analyze_full_text env5 2 "text" a0 "law" "title" "url" raw5 s0 =
      ([], { s0 with
        cache := cacheSet s0.cache (a0.action, legacyDocId raw5 "title" "url") [],
        llmCalls := s0.llmCalls + 1 }) :=
  ⟨rfl, by decide, rfl,
   analyze_index_scan_empty env5 "text" a0 "law" "title" "url" raw5 s0
     (.arr []) rfl (Or.inl rfl) (by decide) rfl rfl⟩

/-- Looking up a freshly stored cache entry returns it. -/
theorem cacheFind_cacheSet
    (c : List ((String × String) × List DocumentReview))
    (k : String × String) (v : List DocumentReview) :
    cacheFind (cacheSet c k v) k = some v := by
  unfold cacheFind cacheSet
  rw [List.find?_cons_of_pos _ (by simp)]
  rfl

/-- A cache hit returns the cached reviews with the url field rewritten to
the current fetch's url, updates the aliased cache entry, and performs no
judgment-service call. -/
theorem analyze_cache_hit (env : Env) (fuel : Nat) (text : String)
    (action : AtomicAction) (category title url : String) (raw : RawDoc)
    (s : InvState) (cached : List DocumentReview)
    (h : cacheFind s.cache (action.action, analyzeDocId category raw title url)
      = some cached) :
    analyze_full_text env (fuel + 1) text action category title url raw s =
      (cached.map (fun r => { r with url := url }),
       { s with cache := (cacheSet s.cache
           (action.action, analyzeDocId category raw title url)
           (cached.map (fun r => { r with url := url }))) }) := by
  unfold analyze_full_text
  dsimp only
  rw [h]

/-- On texts of 5000 or more characters the direct-or-chunk tail takes the
chunked path and stores its result under the cache key. -/
theorem analyze_direct_or_chunk_caches (env : Env) (text url : String)
    (ck : String × String) (s : InvState) (hlen : 5000 ≤ text.length) :
    cacheFind (analyze_direct_or_chunk env text url ck s).2.cache ck =
      some (analyze_direct_or_chunk env text url ck s).1 := by
  unfold analyze_direct_or_chunk
  rw [if_neg (by omega)]
  dsimp only
  exact cacheFind_cacheSet _ _ _

/-- A fresh extraction of a statute or administrative rule with at least
5000 characters of text always ends in a caching path (index scan or
chunked analysis) and stores exactly what it returns. -/
theorem analyze_first_caches (env : Env) (text : String)
    (action : AtomicAction) (category title url : String) (raw : RawDoc)
    (s : InvState)
    (hcache : cacheFind s.cache (action.action, legacyDocId raw title url) = none)
    (hcat : category = "law" ∨ category = "admrul")
    (hlen : 5000 ≤ text.length) :
    cacheFind
        (analyze_full_text env 2 text action category title url raw s).2.cache
        (action.action, legacyDocId raw title url) =
      some (analyze_full_text env 2 text action category title url raw s).1 := by
  rcases hcat with h | h <;> subst h <;>
  · unfold analyze_full_text
    dsimp only
    simp only [analyzeDocId]
    simp
    rw [hcache]
    dsimp only
    split
    · split
      · exact analyze_direct_or_chunk_caches _ _ _ _ _ hlen
      · split
        · exact cacheFind_cacheSet _ _ _
        · dsimp only
          exact cacheFind_cacheSet _ _ _
    · exact analyze_direct_or_chunk_caches _ _ _ _ _ hlen

/-- C2 (amended): for a statute/administrative-rule document with a stable
unique id whose first fresh extraction runs on at least 5000 characters of
text (index-scan or chunked path — the paths that write the Analysis
Cache), a second extraction for the same action and document inside the same
Investigator instance returns the first result with every url field
rewritten to the current fetch's url, and performs no further
judgment-service or law-API call.  (The short-text direct path returns
before the cache store and is excluded: see the counterexample.) -/
theorem analyze_cache_roundtrip (env : Env) (text text2 : String)
    (action : AtomicAction) (category title title2 url url2 : String)
    (raw : RawDoc) (s : InvState)
    (hcache : cacheFind s.cache (action.action, legacyDocId raw title url) = none)
    (hcat : category = "law" ∨ category = "admrul")
    (hlen : 5000 ≤ text.length)
    (hid : raw.uniqueId ≠ "Unknown") :
    (analyze_full_text env 2 text2 action category title2 url2 raw
        (analyze_full_text env 2 text action category title url raw s).2).1 =
      (analyze_full_text env 2 text action category title url raw s).1.map
        (fun r => { r with url := url2 })
    ∧ (analyze_full_text env 2 text2 action category title2 url2 raw
        (analyze_full_text env 2 text action category title url raw s).2).2.llmCalls
      = (analyze_full_text env 2 text action category title url raw s).2.llmCalls
    ∧ (analyze_full_text env 2 text2 action category title2 url2 raw
        (analyze_full_text env 2 text action category title url raw s).2).2.netCalls
      = (analyze_full_text env 2 text action category title url raw s).2.netCalls := by
  have hd1 : analyzeDocId category raw title2 url2 = legacyDocId raw title url := by
    rcases hcat with h | h <;> subst h <;>
      simp [analyzeDocId, legacyDocId, hid]
  have hfirst := analyze_first_caches env text action category title url raw s
    hcache hcat hlen
  have hhit : analyze_full_text env 2 text2 action category title2 url2 raw
      (analyze_full_text env 2 text action category title url raw s).2 =
      ((analyze_full_text env 2 text action category title url raw s).1.map
        (fun r => { r with url := url2 }),
       { (analyze_full_text env 2 text action category title url raw s).2 with
          cache := (cacheSet
            (analyze_full_text env 2 text action category title url raw s).2.cache
            (action.action, analyzeDocId category raw title2 url2)
            ((analyze_full_text env 2 text action category title url raw s).1.map
              (fun r => { r with url := url2 }))) }) :=
    analyze_cache_hit env 1 text2 action category title2 url2 raw
      (analyze_full_text env 2 text action category title url raw s).2
      (analyze_full_text env 2 text action category title url raw s).1
      (by rw [hd1]; exact hfirst)
  rw [hhit]
  exact ⟨rfl, rfl, rfl⟩

/-- A 5000-character text (forces the non-direct paths). -/
def textLong : String := String.mk (List.replicate 5000 'x')

theorem textLong_length : textLong.length = 5000 := by
  show (List.replicate 5000 'x').length = 5000
  exact List.length_replicate _ _

def env2a : Env :=
  ⟨fun _ => some (.arr []), fun _ _ => [], fun _ _ => []⟩

/-- Witness for the amended C2 at a concrete cached (index-scan) run. -/
theorem analyze_cache_roundtrip_witness :
    cacheFind s0.cache (a0.action, legacyDocId raw5 "t" "u") = none ∧
    5000 ≤ textLong.length ∧
    raw5.uniqueId ≠ "Unknown" ∧
    ((analyze_full_text env2a 2 "short" a0 "law" "t2" "u2" raw5
        (analyze_full_text env2a 2 textLong a0 "law" "t" "u" raw5 s0).2).1 =
      (analyze_full_text env2a 2 textLong a0 "law" "t" "u" raw5 s0).1.map
        (fun r => { r with url := "u2" })
    ∧ (analyze_full_text env2a 2 "short" a0 "law" "t2" "u2" raw5
        (analyze_full_text env2a 2 textLong a0 "law" "t" "u" raw5 s0).2).2.llmCalls
      = (analyze_full_text env2a 2 textLong a0 "law" "t" "u" raw5 s0).2.llmCalls
    ∧ (analyze_full_text env2a 2 "short" a0 "law" "t2" "u2" raw5
        (analyze_full_text env2a 2 textLong a0 "law" "t" "u" raw5 s0).2).2.netCalls
      = (analyze_full_text env2a 2 textLong a0 "law" "t" "u" raw5 s0).2.netCalls) :=
  ⟨rfl, by simp [textLong_length], by decide,
   analyze_cache_roundtrip env2a textLong "short" a0 "law" "t" "t2" "u" "u2"
     raw5 s0 rfl (Or.inl rfl) (by simp [textLong_length]) (by decide)⟩

/-- Judgment service returning one fixed Prohibited review. -/
def env2c : Env :=
  ⟨fun _ => some (.obj [("law_name", .str "L"), ("key_clause", .str "K"),
      ("status", .str "Prohibited"), ("summary", .str "S")]),
   fun _ _ => [], fun _ _ => []⟩

/-- A 60-character document body (short enough for direct analysis, long
enough to pass the 50-character extraction filter). -/
def text60 : String := String.mk (List.replicate 60 'x')

def raw2c : RawDoc := ⟨"DOC1", []⟩

/-- Counterexample to C2 as stated: the short-text direct path returns a
successful, non-empty result WITHOUT writing the Analysis Cache, so an
identical second extraction performs a second judgment-service call. -/
theorem analyze_direct_path_no_cache :
    (analyze_full_text env2c 2 text60 a0 "law" "t" "u" raw2c s0).1 =
      [⟨"L", "K", "Prohibited", "S", "u"⟩] ∧
    (analyze_full_text env2c 2 text60 a0 "law" "t" "u" raw2c s0).2.cache = [] ∧
    (analyze_full_text env2c 2 text60 a0 "law" "t" "u" raw2c
      (analyze_full_text env2c 2 text60 a0 "law" "t" "u" raw2c s0).2).2.llmCalls
      = 2 :=
  ⟨rfl, rfl, rfl⟩

/-- A one-action scenario. -/
def scen1 : Scenario := ⟨"case", "business", [a0]⟩

/-- One AI-search hit whose 60-character article body passes the extraction
filter. -/
def aiItem1 : AiItem := ⟨"법명", "제1조", text60, "link1", emptyRaw⟩

/-- Environment reproducing the Neutral-variant leak on a path the program
actually completes: the strategy targets statutes only (so the broken
precedent fetch is never reached), the AI law search returns one article,
and the `ai_result` extraction reply carries status "중립" — the Korean
variant, against that path's English sentinel 'Neutral'
(investigator.py:459); the critique passes. -/
def env1 : Env :=
  ⟨fun n =>
    match n with
    | 0 => some (.obj [("rationale", .str "r"),
        ("databases", .arr [.str "law"]), ("focus_keywords", .arr [])])
    | 1 => some (.arr [.str "가나"])
    | 2 => some (.arr [.str "질의"])
    | 3 => some (.obj [("law_name", .str "법명"), ("key_clause", .str "제1조"),
        ("status", .str "중립"), ("summary", .str "S")])
    | 4 => some (.obj [("status", .str "PASS")])
    | _ => none,
   fun q sc =>
     match q, sc with
     | .str s, 0 => if s = "질의" then [aiItem1] else []
     | _, _ => [],
   fun _ _ => []⟩

/-- C1, evaluated at the failing input: `execute` completes normally and
returns an EvidenceSet whose single entry has status "중립" — the
`ai_result` extraction path only discards the exact English sentinel
'Neutral', so the Korean variant '중립' is retained, violating the spec
invariant. -/
theorem execute_neutral_leak :
    execute env1 scen1 s0 = Except.ok
      ((["- 법명 제1조: S"], [⟨"법명", "제1조", "중립", "S", "link1"⟩]),
       ⟨[((a0.action, "AI_법명 제1조_link1"),
          [⟨"법명", "제1조", "중립", "S", "link1"⟩])], 5, 1, 1⟩) ∧
    (execute env1 scen1 s0).toOption.map
      (fun r => r.1.2.map (fun x => x.status)) = some ["중립"] :=
  ⟨rfl, rfl⟩

/-- Environment whose critique replies FAIL with non-empty new keywords
(exactly the vocabulary its prompt mandates); every search is empty. -/
def env3 : Env :=
  ⟨fun n =>
    match n with
    | 0 => some (.obj [("rationale", .str "r"),
        ("databases", .arr [.str "prec"]), ("focus_keywords", .arr [])])
    | 1 => some (.arr [.str "가나"])
    | 2 => some (.obj [("status", .str "FAIL"), ("reason", .str "nothing"),
        ("new_keywords", .arr [.str "나다"])])
    | _ => none,
   fun _ _ => [], fun _ _ => []⟩

/-- C3, evaluated at the failing input: the critique returns status "FAIL"
with a non-empty new-keyword list, yet `execute` completes with the
retrieval counter at 1 and exactly three judgment calls — its retry guard
compares against "RETRY", a status the critic prompt never allows, so the
FAIL-retry required by the spec never happens.  (All searches are empty, so
the broken precedent-fetch line is never reached.) -/
theorem execute_fail_no_retry :
    env3.llm 2 = some (.obj [("status", .str "FAIL"), ("reason", .str "nothing"),
      ("new_keywords", .arr [.str "나다"])]) ∧
    critStatusIs [("status", .str "FAIL"), ("reason", .str "nothing"),
      ("new_keywords", .arr [.str "나다"])] "RETRY" = false ∧
    critKeywords [("status", .str "FAIL"), ("reason", .str "nothing"),
      ("new_keywords", .arr [.str "나다"])] = [.str "나다"] ∧
    execute env3 scen1 s0 = Except.ok (([], []), ⟨[], 3, 1, 1⟩) :=
  ⟨rfl, rfl, rfl, rfl⟩
